import Mathlib

/-!
Verification of the audio-enhancer repository (Python, three source files)
against its natural-language specification.

The development shallowly embeds the repository's code:

* `scripts/helpers/metadata.py` — the metadata subsystem
  (`build_metadata_args`, `save_metadata_file`, `load_metadata_file`);
* `scripts/convert_audio_to_wav.py` — Stage 1, the Normalizer, modelled as
  a trace-producing batch loop over an abstract environment (external
  `ffmpeg`/`ffprobe` are black boxes, per the spec);
* `scripts/convert_wav_to_format.py` — Stage 2, the Encoder, of which we
  embed the candidate enumeration and the output-name collision loop.

Pure string/path helpers mirror Python `pathlib` semantics (`stem`,
`suffix`, `with_suffix` split the file name at the last dot, provided that
dot is neither the first nor the last character of the name).
-/

namespace AudioEnhancer

/-- ASCII lower-casing of one character, the fragment of Python
`str.lower` exercised by file extensions. -/
def charLower (c : Char) : Char :=
  if c.toNat ≥ 65 && c.toNat ≤ 90 then Char.ofNat (c.toNat + 32) else c

/-- Python `str.lower` (ASCII fragment). -/
def strLower (s : String) : String := String.mk (s.toList.map charLower)

/-- Whether `s` ends with `suffix`, the semantics of a glob pattern with
a literal tail on a case-sensitive path flavour. -/
def strEndsWith (s suffix : String) : Bool := suffix.toList.isSuffixOf s.toList

/-- The ASCII whitespace characters stripped by Python `str.strip()`. -/
def isPySpace (c : Char) : Bool :=
  c == ' ' || c == '\t' || c == '\n' || c == '\r' || c == '\x0b' || c == '\x0c'

/-- Python `str.strip()` (ASCII-whitespace fragment). -/
def pyStrip (s : String) : String :=
  String.mk (((s.toList.dropWhile isPySpace).reverse.dropWhile isPySpace).reverse)

/-- Index of the last occurrence of a dot in a list of characters,
mirroring Python `str.rfind` restricted to the dot character. -/
def rfindDot (cs : List Char) : Option Nat :=
  ((cs.enum.filter (fun p => p.2 == '.')).map (fun p => p.1)).getLast?

/-- Split a file name into `(stem, suffix)` following Python `pathlib`:
the name splits at the last dot when that dot's index `i` satisfies
`0 < i < length - 1`; otherwise the suffix is empty. -/
def pySplitName (name : String) : String × String :=
  let cs := name.toList
  match rfindDot cs with
  | none => (name, "")
  | some i =>
    if 0 < i && i + 1 < cs.length then
      (String.mk (cs.take i), String.mk (cs.drop i))
    else (name, "")

/-- Python `pathlib` stem of a file name. -/
def pyStem (name : String) : String := (pySplitName name).1

/-- Python `pathlib` suffix (extension, dot included) of a file name. -/
def pySuffix (name : String) : String := (pySplitName name).2

/-- One ffprobe stream entry, restricted to the fields the code reads:
`codec_type` and the `disposition.attached_pic` flag. A missing key is
`none`, mirroring `dict.get`. -/
structure AVStream where
  codec_type : Option String
  attached_pic : Option Int
deriving DecidableEq

/-- The part of an ffprobe record that `build_metadata_args` consumes:
`format.tags` as an association list (first binding wins, as in a Python
dict) and the `streams` array. -/
structure MetadataRecord where
  tags : List (String × String)
  streams : List AVStream
deriving DecidableEq

/-- Python `tags.get(k)`: the value bound to `k`, or `None`. -/
def tagGet (tags : List (String × String)) (k : String) : Option String :=
  (tags.find? (fun kv => kv.1 == k)).map (fun kv => kv.2)

/-- Python `a or b` on optional strings: `a` when it is truthy (present
and non-empty), otherwise `b`. -/
def pyOr : Option String → Option String → Option String
  | some v, b => if v == "" then b else some v
  | none, b => b

/-- Python truthiness of a string: non-empty. -/
def pyTruthy (v : String) : Bool := v != ""

/-- The `metadata_fields` dict of `build_metadata_args`
(`metadata.py` lines 126–141), in insertion order, each value the
translation of the corresponding `or`-chain of `tags.get` calls. -/
def metadata_fields (tags : List (String × String)) : List (String × Option String) :=
  [("title", pyOr (tagGet tags "title") (tagGet tags "TITLE")),
   ("artist", pyOr (tagGet tags "artist")
      (pyOr (tagGet tags "ARTIST")
        (pyOr (tagGet tags "album_artist") (tagGet tags "ALBUM_ARTIST")))),
   ("album", pyOr (tagGet tags "album") (tagGet tags "ALBUM")),
   ("date", pyOr (tagGet tags "date")
      (pyOr (tagGet tags "DATE") (tagGet tags "year"))),
   ("genre", pyOr (tagGet tags "genre") (tagGet tags "GENRE")),
   ("track", pyOr (tagGet tags "track") (tagGet tags "TRACK")),
   ("album_artist", pyOr (tagGet tags "album_artist")
      (pyOr (tagGet tags "ALBUM_ARTIST") (tagGet tags "artist"))),
   ("composer", pyOr (tagGet tags "composer") (tagGet tags "COMPOSER")),
   ("comment", pyOr (tagGet tags "comment") (tagGet tags "COMMENT"))]

/-- Emission loop of `build_metadata_args` (lines 144–146): for each field
in order, append `-metadata key=value` when the value is truthy and its
whitespace-stripped form is truthy. -/
def buildTagArgs (fields : List (String × Option String)) : List String :=
  fields.foldr
    (fun kv acc =>
      match kv.2 with
      | some v => if pyTruthy v && pyTruthy (pyStrip v)
                  then "-metadata" :: (kv.1 ++ "=" ++ v) :: acc
                  else acc
      | none => acc) []

/-- Artwork detection (lines 108–112): some stream has video codec type
and `disposition.attached_pic == 1`. -/
def hasArtwork (streams : List AVStream) : Bool :=
  streams.any (fun s => s.codec_type == some "video" && s.attached_pic == some (1 : Int))

/-- The five artwork directives emitted at lines 115–123, given the
original file used as second input. -/
def artworkArgs (p : String) : List String :=
  ["-i", p, "-map", "0:a", "-map", "1:v?", "-c:v", "copy",
   "-disposition:v:0", "attached_pic"]

/-- Embedding of `build_metadata_args(metadata, original_file_path)`
(`metadata.py` lines 97–148). `none` metadata yields no directives;
artwork directives require detected artwork and a present original file;
tag directives follow. -/
def build_metadata_args (metadata : Option MetadataRecord)
    (original_file_path : Option String) : List String :=
  match metadata with
  | none => []
  | some md =>
    let art :=
      if hasArtwork md.streams then
        match original_file_path with
        | some p => artworkArgs p
        | none => []
      else []
    art ++ buildTagArgs (metadata_fields md.tags)

/-- A JSON value, the content persisted to and reloaded from sidecar
files. The repository stores the prober's parsed JSON output verbatim. -/
inductive Json where
  | null : Json
  | bool (b : Bool) : Json
  | num (n : Int) : Json
  | str (s : String) : Json
  | arr (elems : List Json) : Json
  | obj (fields : List (String × Json)) : Json

/-- A filesystem path split as directory plus file name, enough to mirror
`pathlib.Path.with_suffix`, which rewrites the name only. -/
structure PyPath where
  dir : String
  name : String
deriving DecidableEq

/-- Python `Path.with_suffix`: replace the name's suffix (as computed by
`pySplitName`) with the given one. -/
def with_suffix (p : PyPath) (s : String) : PyPath :=
  ⟨p.dir, pyStem p.name ++ s⟩

/-- The sidecar store: which sidecar path holds which JSON value. The
JSON (de)serialization performed by Python's standard library is treated
as a faithful external collaborator, so the store holds JSON values. -/
def SidecarStore := PyPath → Option Json

/-- Embedding of `save_metadata_file(metadata, output_file)`
(`metadata.py` lines 38–48): no-op on absent metadata, otherwise write
the record to `output_file.with_suffix(".metadata.json")`. -/
def save_metadata_file (metadata : Option Json) (output_file : PyPath)
    (fs : SidecarStore) : SidecarStore :=
  match metadata with
  | none => fs
  | some j =>
    fun p => if p = with_suffix output_file ".metadata.json" then some j else fs p

/-- Embedding of `load_metadata_file(wav_file)` (`metadata.py` lines
51–62): read `wav_file.with_suffix(".metadata.json")`; absent when the
sidecar does not exist. -/
def load_metadata_file (wav_file : PyPath) (fs : SidecarStore) : Option Json :=
  fs (with_suffix wav_file ".metadata.json")

/-! ### Stage 1: the Normalizer (`scripts/convert_audio_to_wav.py`)

The batch loop is modelled as a trace-producing function. External tools
are an abstract environment: whether `ffmpeg` is installed, and whether a
given invocation reports success. The probe result does not influence any
control flow of Stage 1 (its value is only handed to
`save_metadata_file`), so the environment does not carry it. Candidates
are identified by file name; the source-directory prefix, which the code
only threads through to the external tools, is elided. -/

/-- The recognized source audio extensions (`AUDIO_EXTENSIONS`,
`convert_audio_to_wav.py` lines 16–30). -/
def AUDIO_EXTENSIONS : List String :=
  [".mp3", ".m4a", ".aac", ".flac", ".ogg", ".wma", ".aiff", ".au",
   ".ra", ".3gp", ".amr", ".opus", ".wav"]

/-- Embedding of `is_audio_file` (lines 33–41): the lower-cased suffix is
a recognized audio extension. The listing is assumed to contain files
only, discharging the `is_file` check. -/
def is_audio_file (name : String) : Bool :=
  AUDIO_EXTENSIONS.contains (strLower (pySuffix name))

/-- Observable actions of one Stage 1 run, in order. -/
inductive Ev where
  | skip (f : String) : Ev
  | probe (f : String) : Ev
  | saveCall (f : String) : Ev
  | ffmpegRun (cmd : List String) : Ev
  | ffmpegMissing : Ev
  | copyRun (src dst : String) : Ev
deriving DecidableEq

/-- Terminal state of one Stage 1 candidate (spec section 4.2). -/
inductive FState where
  | Skipped : FState
  | Copied : FState
  | Converted : FState
  | Failed : FState
deriving DecidableEq

/-- Abstract environment of Stage 1: whether the transcoder binary is
installed, and the outcome of each transcode or copy, by input name. -/
structure Env1 where
  ffmpegOk : Bool
  transcodeOk : String → Bool
  copyOk : String → Bool

/-- Destination path of a candidate (line 100–101): fixed output
directory plus the candidate's stem with the intermediate extension. -/
def wavDest (f : String) : String := "temp/wav_input/" ++ (pyStem f ++ ".wav")

/-- The ffmpeg command built by `convert_to_wav` (lines 47–57). -/
def convert_to_wav_cmd (input output : String) : List String :=
  ["ffmpeg", "-i", input, "-acodec", "pcm_s16le", "-ar", "44100", output, "-y"]

/-- Embedding of `convert_to_wav` (lines 44–67): attempt the transcoder
invocation; a missing binary is caught and reported as failure. -/
def convert_to_wav (env : Env1) (input output : String) : List Ev × Bool :=
  if env.ffmpegOk then
    ([Ev.ffmpegRun (convert_to_wav_cmd input output)], env.transcodeOk input)
  else
    ([Ev.ffmpegRun (convert_to_wav_cmd input output), Ev.ffmpegMissing], false)

/-- Embedding of `move_wav_file` (lines 70–78): byte-copy the file. -/
def move_wav_file (env : Env1) (input output : String) : List Ev × Bool :=
  ([Ev.copyRun input output], env.copyOk input)

/-- One iteration of the Stage 1 loop (lines 98–119): skip when the
destination exists, otherwise probe, call the sidecar writer, then copy
(for `.wav` inputs) or transcode. Returns the trace, the terminal state,
and the updated file-existence predicate (a successful copy or transcode
creates the destination). -/
def processOne (env : Env1) (fs : String → Bool) (f : String) :
    List Ev × FState × (String → Bool) :=
  let output := wavDest f
  if fs output then
    ([Ev.skip f], FState.Skipped, fs)
  else
    let pre := [Ev.probe f, Ev.saveCall f]
    if strLower (pySuffix f) == ".wav" then
      let r := move_wav_file env f output
      (pre ++ r.1, if r.2 then FState.Copied else FState.Failed,
       if r.2 then fun p => p == output || fs p else fs)
    else
      let r := convert_to_wav env f output
      (pre ++ r.1, if r.2 then FState.Converted else FState.Failed,
       if r.2 then fun p => p == output || fs p else fs)

/-- The Stage 1 loop over the candidate list, threading the filesystem
state and collecting the trace and per-candidate terminal states. -/
def runBatch (env : Env1) :
    (String → Bool) → List String → List Ev × List FState × (String → Bool)
  | fs, [] => ([], [], fs)
  | fs, f :: rest =>
    let r := processOne env fs f
    let r' := runBatch env r.2.2 rest
    (r.1 ++ r'.1, r.2.1 :: r'.2.1, r'.2.2)

/-- The `success_count` aggregation (lines 97–119): skips, copies and
conversions count as successes; failures do not. -/
def successCount (sts : List FState) : Nat :=
  sts.countP (fun s => s != FState.Failed)

/-- Embedding of `convert_audio_files_to_wav(source_dir)` (lines
81–129): filter the listing, return exit code 0 on an empty candidate
set (the bare `return`, which `exit` maps to status 0), otherwise run
the batch; exit code 1 exactly when no candidate succeeded. Returns the
trace, the terminal states, and the exit code. -/
def convert_audio_files_to_wav (env : Env1) (listing : List String)
    (fs : String → Bool) : List Ev × List FState × Nat :=
  let audio_files := listing.filter is_audio_file
  if audio_files.isEmpty then ([], [], 0)
  else
    let r := runBatch env fs audio_files
    (r.1, r.2.1, if successCount r.2.1 = 0 then 1 else 0)

/-- Embedding of Stage 1's `main` (lines 132–145): exit 1 when the
source directory is missing, otherwise the batch's exit code. -/
def stage1_main (env : Env1) (sourceExists : Bool) (listing : List String)
    (fs : String → Bool) : Nat :=
  if sourceExists then (convert_audio_files_to_wav env listing fs).2.2 else 1

/-! ### Stage 2: the Encoder (`scripts/convert_wav_to_format.py`)

We embed the two parts the claims address: candidate enumeration (lines
28–35) and the output-name collision loop (lines 43–51). -/

/-- Embedding of the Stage 2 enumeration (lines 29–31): the files
matching glob pattern `*.wav`, then those matching `*.WAV`. On the POSIX
path flavour a glob pattern with a literal suffix matches exactly the
names ending in that suffix, case-sensitively. -/
def wav_files (listing : List String) : List String :=
  listing.filter (fun n => strEndsWith n ".wav") ++
    listing.filter (fun n => strEndsWith n ".WAV")

/-- The candidate output names tried by the collision loop (lines
43–51): first `stem.format`, then `stem_1.format`, `stem_2.format`, … -/
def outputName (stem format : String) : Nat → String
  | 0 => stem ++ "." ++ format
  | Nat.succ n => stem ++ "_" ++ toString (n + 1) ++ "." ++ format

/-- The collision `while` loop (lines 47–51), with explicit fuel: try
candidate names in order, returning the first one not present in the
output directory. The fuel `existing.length + 1` of
`resolveOutputPath` always suffices, since candidate names are pairwise
distinct. -/
def findFreeName (existing : List String) (stem format : String) :
    Nat → Nat → String
  | n, 0 => outputName stem format n
  | n, Nat.succ fuel =>
    if outputName stem format n ∈ existing then
      findFreeName existing stem format (n + 1) fuel
    else outputName stem format n

/-- The output path Stage 2 selects for a candidate, given the names
already present in the output directory. -/
def resolveOutputPath (existing : List String) (stem format : String) : String :=
  findFreeName existing stem format 0 (existing.length + 1)

/-! ### Theorems -/

/-- Claim C5 counterexample: the file `a.Wav` has lower-cased extension
`.wav`, yet Stage 2's enumeration (glob `*.wav` then `*.WAV`,
case-sensitive) does not include it — the claimed case-insensitive match
fails on mixed-case extensions. -/
theorem wav_enumeration_counterexample :
    strLower (pySuffix "a.Wav") = ".wav" ∧ wav_files ["a.Wav"] = [] := by
  decide

/-- Claim C5 (amended): Stage 2 enumerates exactly the files directly
under the input directory whose name ends in `.wav` or `.WAV`
(exact case); mixed-case variants are excluded. -/
theorem wav_enumeration_mem (listing : List String) (n : String) :
    n ∈ wav_files listing ↔
      n ∈ listing ∧ (strEndsWith n ".wav" = true ∨ strEndsWith n ".WAV" = true) := by
  simp only [wav_files, List.mem_append, List.mem_filter]
  tauto

/-- Claim C9: sidecar persistence round-trips — persisting a non-absent
record next to an output asset and reloading via any asset with the same
directory and stem returns the identical record. The JSON
(de)serialization done by Python's standard library is modelled as
storing the JSON value itself. -/
theorem sidecar_roundtrip (fs : SidecarStore) (j : Json) (out asset : PyPath)
    (hdir : asset.dir = out.dir) (hstem : pyStem asset.name = pyStem out.name) :
    load_metadata_file asset (save_metadata_file (some j) out fs) = some j := by
  have hpath : with_suffix asset ".metadata.json" = with_suffix out ".metadata.json" := by
    simp [with_suffix, hdir, hstem]
  simp only [load_metadata_file, save_metadata_file]
  rw [if_pos hpath]

/-- Witness for C9 at a concrete store, record and asset pair. -/
theorem sidecar_roundtrip_witness :
    load_metadata_file ⟨"temp/wav_input", "song.flac"⟩
      (save_metadata_file (some (Json.str "x")) ⟨"temp/wav_input", "song.wav"⟩
        (fun _ => none)) = some (Json.str "x") :=
  sidecar_roundtrip (fun _ => none) (Json.str "x") ⟨"temp/wav_input", "song.wav"⟩
    ⟨"temp/wav_input", "song.flac"⟩ rfl (by decide)

/-- Specification of the collision loop: starting the search at `n` with
enough fuel, assuming some in-budget candidate is free and all names
before `n` are taken, the loop returns a name that is not taken, and it
is the first free one. -/
theorem findFreeName_spec (existing : List String) (stem format : String) :
    ∀ fuel n : Nat,
      (∃ k, n ≤ k ∧ k ≤ n + fuel ∧ outputName stem format k ∉ existing) →
      (∀ m < n, outputName stem format m ∈ existing) →
      findFreeName existing stem format n fuel ∉ existing ∧
      ∃ j, findFreeName existing stem format n fuel = outputName stem format j ∧
        ∀ m < j, outputName stem format m ∈ existing := by
  intro fuel
  induction fuel with
  | zero =>
    intro n hex hall
    obtain ⟨k, hnk, hkn, hfree⟩ := hex
    have hk : k = n := Nat.le_antisymm (by omega) hnk
    subst hk
    exact ⟨by simpa [findFreeName] using hfree, k, rfl, hall⟩
  | succ fuel ih =>
    intro n hex hall
    by_cases hmem : outputName stem format n ∈ existing
    · have hex' : ∃ k, n + 1 ≤ k ∧ k ≤ (n + 1) + fuel ∧
          outputName stem format k ∉ existing := by
        obtain ⟨k, hnk, hkn, hfree⟩ := hex
        refine ⟨k, ?_, by omega, hfree⟩
        rcases Nat.lt_or_ge n k with h | h
        · omega
        · have hk : k = n := Nat.le_antisymm h hnk
          exact absurd (hk ▸ hmem) hfree
      have hall' : ∀ m < n + 1, outputName stem format m ∈ existing := by
        intro m hm
        rcases Nat.lt_or_ge m n with h | h
        · exact hall m h
        · have hm' : m = n := by omega
          exact hm' ▸ hmem
      have hrec := ih (n + 1) hex' hall'
      simpa [findFreeName, hmem] using hrec
    · exact ⟨by simp [findFreeName, hmem], n,
        by simp [findFreeName, hmem], hall⟩

/-- Claim C4: the Encoder never selects an output path that already
exists — it tries `stem.format`, then `stem_1.format`, `stem_2.format`,
…, and picks the first free name. The hypothesis records that the
candidate names are pairwise distinct (true of the decimal-suffix
scheme), which bounds the collision loop. -/
theorem encoder_collision_resolution (existing : List String) (stem format : String)
    (hnd : ((List.range (existing.length + 1)).map (outputName stem format)).Nodup) :
    resolveOutputPath existing stem format ∉ existing ∧
    ∃ j, resolveOutputPath existing stem format = outputName stem format j ∧
      ∀ m < j, outputName stem format m ∈ existing := by
  have hex : ∃ k, 0 ≤ k ∧ k ≤ 0 + (existing.length + 1) ∧
      outputName stem format k ∉ existing := by
    by_contra hcon
    push_neg at hcon
    have hsub : ((List.range (existing.length + 1)).map (outputName stem format))
        ⊆ existing := by
      intro x hx
      simp only [List.mem_map, List.mem_range] at hx
      obtain ⟨k, hk, rfl⟩ := hx
      exact hcon k (Nat.zero_le _) (by omega)
    have hlen := (hnd.subperm hsub).length_le
    simp only [List.length_map, List.length_range] at hlen
    omega
  exact findFreeName_spec existing stem format (existing.length + 1) 0 hex
    (by intro m hm; omega)

/-- Witness for C4: with `track.mp3` pre-existing, converting `track.wav`
(stem `track`) targets `track_1.mp3`, which is not among the existing
files. -/
theorem encoder_collision_resolution_witness :
    resolveOutputPath ["track.mp3"] (pyStem "track.wav") "mp3" = "track_1.mp3" ∧
    (resolveOutputPath ["track.mp3"] (pyStem "track.wav") "mp3" ∉ ["track.mp3"] ∧
      ∃ j, resolveOutputPath ["track.mp3"] (pyStem "track.wav") "mp3" =
          outputName (pyStem "track.wav") "mp3" j ∧
        ∀ m < j, outputName (pyStem "track.wav") "mp3" m ∈ ["track.mp3"]) :=
  ⟨by decide,
    encoder_collision_resolution ["track.mp3"] (pyStem "track.wav") "mp3" (by decide)⟩

/-- Resolution of a per-key fallback chain: the Python expression
`tags.get(k1) or tags.get(k2) or … or tags.get(kn)`. -/
def resolveChain (tags : List (String × String)) : List String → Option String
  | [] => none
  | [k] => tagGet tags k
  | k :: ks => pyOr (tagGet tags k) (resolveChain tags ks)

/-- The per-key source-tag chains actually implemented, read off
`metadata.py` lines 126–141. -/
def metadataFieldChains : List (String × List String) :=
  [("title", ["title", "TITLE"]),
   ("artist", ["artist", "ARTIST", "album_artist", "ALBUM_ARTIST"]),
   ("album", ["album", "ALBUM"]),
   ("date", ["date", "DATE", "year"]),
   ("genre", ["genre", "GENRE"]),
   ("track", ["track", "TRACK"]),
   ("album_artist", ["album_artist", "ALBUM_ARTIST", "artist"]),
   ("composer", ["composer", "COMPOSER"]),
   ("comment", ["comment", "COMMENT"])]

/-- Modelled from the spec: claim C1's chains — lower-case name first,
upper-case variant next, and for artist and album_artist a cross-fallback
to the other of the two with its case variants; no other source tag. -/
def specFieldChainsC1 : List (String × List String) :=
  [("title", ["title", "TITLE"]),
   ("artist", ["artist", "ARTIST", "album_artist", "ALBUM_ARTIST"]),
   ("album", ["album", "ALBUM"]),
   ("date", ["date", "DATE"]),
   ("genre", ["genre", "GENRE"]),
   ("track", ["track", "TRACK"]),
   ("album_artist", ["album_artist", "ALBUM_ARTIST", "artist", "ARTIST"]),
   ("composer", ["composer", "COMPOSER"]),
   ("comment", ["comment", "COMMENT"])]

/-- Chain resolution only reads the tags named in the chain. -/
theorem resolveChain_congr (tags tags' : List (String × String)) :
    ∀ chain : List String, (∀ k ∈ chain, tagGet tags k = tagGet tags' k) →
      resolveChain tags chain = resolveChain tags' chain := by
  intro chain
  induction chain with
  | nil => intro _; rfl
  | cons k ks ih =>
    intro h
    cases ks with
    | nil => simpa [resolveChain] using h k (by simp)
    | cons k2 ks2 =>
      simp only [resolveChain]
      rw [h k (by simp), ih (fun x hx => h x (by simp [hx]))]

/-- Claim C1 counterexample: the claimed chains disagree with the code.
With only a `year` tag the code resolves `date` (the claimed chain
`date`/`DATE` would not) and emits a `date` directive; with only an
`ARTIST` tag the code leaves `album_artist` unresolved (the claimed
cross-fallback through `ARTIST` would resolve it). -/
theorem metadata_fields_chain_counterexample :
    metadata_fields [("year", "1999")] ≠
      specFieldChainsC1.map (fun kc => (kc.1, resolveChain [("year", "1999")] kc.2)) ∧
    metadata_fields [("ARTIST", "A")] ≠
      specFieldChainsC1.map (fun kc => (kc.1, resolveChain [("ARTIST", "A")] kc.2)) ∧
    build_metadata_args (some ⟨[("year", "1999")], []⟩) none =
      ["-metadata", "date=1999"] := by
  refine ⟨by decide, by decide, by decide⟩

/-- Claim C1 (amended): each of the nine keys resolves by exactly the
implemented chains — lower-case then upper-case for every key, with
`date` additionally falling back to `year`, `artist` cross-falling back
to `album_artist`/`ALBUM_ARTIST`, and `album_artist` cross-falling back
to lower-case `artist` only — and no key reads any source tag outside
its chain. -/
theorem metadata_fields_chain_table (tags tags' : List (String × String)) :
    metadata_fields tags =
      metadataFieldChains.map (fun kc => (kc.1, resolveChain tags kc.2)) ∧
    ∀ kc ∈ metadataFieldChains,
      (∀ k ∈ kc.2, tagGet tags k = tagGet tags' k) →
      resolveChain tags kc.2 = resolveChain tags' kc.2 := by
  refine ⟨rfl, ?_⟩
  intro kc _ h
  exact resolveChain_congr tags tags' kc.2 h

/-- Witness for the amended C1: the `date` key resolves from `year`, and
its resolution is unchanged by tags outside its chain. -/
theorem metadata_fields_chain_table_witness :
    metadata_fields [("year", "1999")] =
      metadataFieldChains.map (fun kc => (kc.1, resolveChain [("year", "1999")] kc.2)) ∧
    resolveChain [("year", "1999")] ["date", "DATE", "year"] =
      resolveChain [("year", "1999"), ("comment", "c")] ["date", "DATE", "year"] :=
  ⟨(metadata_fields_chain_table [("year", "1999")] [("year", "1999"), ("comment", "c")]).1,
   (metadata_fields_chain_table [("year", "1999")] [("year", "1999"), ("comment", "c")]).2
     ("date", ["date", "DATE", "year"]) (by decide) (by decide)⟩

/-- Claim C2: artwork characterization and suppression — artwork is
detected exactly when some stream is video-typed with the attached-pic
disposition, the five artwork directives appear exactly when artwork is
detected and an artwork source is present, and the tag directives are
those of the artwork-free call in every case. -/
theorem artwork_directives_iff (md : MetadataRecord) (art : Option String) :
    (hasArtwork md.streams = true ↔
      ∃ s ∈ md.streams, s.codec_type = some "video" ∧ s.attached_pic = some 1) ∧
    build_metadata_args (some md) art =
      (if hasArtwork md.streams && art.isSome then artworkArgs (art.getD "") else [])
        ++ build_metadata_args (some md) none := by
  constructor
  · simp [hasArtwork, List.any_eq_true]
  · cases art with
    | none => simp [build_metadata_args]
    | some p =>
      cases h : hasArtwork md.streams <;>
        simp [build_metadata_args, h]

/-- Modelled from the spec: tag emission keeps exactly the fields whose
resolved value is non-empty after trimming whitespace. -/
def specTagArgsC7 (fields : List (String × Option String)) : List String :=
  fields.foldr
    (fun kv acc =>
      match kv.2 with
      | some v => if pyStrip v ≠ "" then "-metadata" :: (kv.1 ++ "=" ++ v) :: acc else acc
      | none => acc) []

/-- The code's emission guard (truthy value and truthy stripped value)
is equivalent to non-emptiness after stripping. -/
theorem strip_guard (v : String) :
    (pyTruthy v && pyTruthy (pyStrip v)) = pyTruthy (pyStrip v) := by
  by_cases h : v = ""
  · subst h; rfl
  · simp [pyTruthy, h]

/-- Claim C7: a tag directive is emitted for a key exactly when its
resolved value is non-empty after trimming; in particular a record whose
only tag is `TITLE="Ch1"` yields exactly the single directive
`title=Ch1` and no artist directive. -/
theorem tag_emission_trim_nonempty :
    (∀ fields, buildTagArgs fields = specTagArgsC7 fields) ∧
    build_metadata_args (some ⟨[("TITLE", "Ch1")], []⟩) none =
      ["-metadata", "title=Ch1"] := by
  constructor
  · intro fields
    induction fields with
    | nil => rfl
    | cons kv rest ih =>
      cases hv : kv.2 with
      | none => simp [buildTagArgs, specTagArgsC7, hv] at ih ⊢; exact ih
      | some v =>
        simp only [buildTagArgs, specTagArgsC7, List.foldr_cons, hv] at ih ⊢
        rw [strip_guard]
        by_cases h : pyStrip v = ""
        · rw [if_neg (by simp [pyTruthy, h]), if_neg (by simp [h]), ih]
        · rw [if_pos (by simp [pyTruthy, h]), if_pos h, ih]
  · decide

/-- Unfolding of one Stage 1 loop step. -/
theorem runBatch_cons (env : Env1) (fs : String → Bool) (f : String)
    (rest : List String) :
    runBatch env fs (f :: rest) =
      ((processOne env fs f).1 ++ (runBatch env (processOne env fs f).2.2 rest).1,
       (processOne env fs f).2.1 :: (runBatch env (processOne env fs f).2.2 rest).2.1,
       (runBatch env (processOne env fs f).2.2 rest).2.2) := by
  simp [runBatch]

/-- A candidate whose destination already exists is skipped, with no
other action and no filesystem change. -/
theorem processOne_skip (env : Env1) (fs : String → Bool) (f : String)
    (h : fs (wavDest f) = true) :
    processOne env fs f = ([Ev.skip f], FState.Skipped, fs) := by
  simp [processOne, h]

/-- A candidate that does not end Failed (and was not skipped) creates
its destination file. -/
theorem processOne_creates_dest (env : Env1) (fs : String → Bool) (f : String)
    (hfree : fs (wavDest f) = false)
    (hok : (processOne env fs f).2.1 ≠ FState.Failed) :
    (processOne env fs f).2.2 (wavDest f) = true := by
  simp only [processOne, hfree, Bool.false_eq_true, if_false] at hok ⊢
  by_cases h2 : (strLower (pySuffix f) == ".wav") = true
  · rw [if_pos h2] at hok ⊢
    cases hc : (move_wav_file env f (wavDest f)).2 with
    | false => rw [hc] at hok; simp at hok
    | true => simp
  · rw [if_neg h2] at hok ⊢
    cases hc : (convert_to_wav env f (wavDest f)).2 with
    | false => rw [hc] at hok; simp at hok
    | true => simp

/-- When the transcoder binary is missing, no candidate can end in the
Converted state. -/
theorem processOne_no_convert_of_tool_missing (env : Env1) (fs : String → Bool)
    (f : String) (hff : env.ffmpegOk = false) :
    (processOne env fs f).2.1 ≠ FState.Converted := by
  simp only [processOne]
  by_cases h1 : fs (wavDest f) = true
  · simp [h1]
  · simp only [h1, if_false, Bool.not_eq_true] at h1 ⊢
    rw [if_neg (by simp [h1])]
    by_cases h2 : (strLower (pySuffix f) == ".wav") = true
    · rw [if_pos h2]
      cases (move_wav_file env f (wavDest f)).2 <;> simp
    · rw [if_neg h2]
      have hc : (convert_to_wav env f (wavDest f)).2 = false := by
        simp [convert_to_wav, hff]
      rw [hc]
      simp

/-- Claim C3 counterexample: with the transcoder binary missing and two
candidates, the batch still processes the second candidate after the
tool-missing condition was observed on the first — Stage 1 does not
abort the batch. -/
theorem tool_missing_continues_counterexample :
    (convert_audio_files_to_wav ⟨false, fun _ => false, fun _ => false⟩
        ["a.mp3", "b.mp3"] (fun _ => false)).1 =
      [Ev.probe "a.mp3", Ev.saveCall "a.mp3",
        Ev.ffmpegRun (convert_to_wav_cmd "a.mp3" (wavDest "a.mp3")), Ev.ffmpegMissing,
        Ev.probe "b.mp3", Ev.saveCall "b.mp3",
        Ev.ffmpegRun (convert_to_wav_cmd "b.mp3" (wavDest "b.mp3")), Ev.ffmpegMissing] ∧
    List.indexOf Ev.ffmpegMissing
        (convert_audio_files_to_wav ⟨false, fun _ => false, fun _ => false⟩
          ["a.mp3", "b.mp3"] (fun _ => false)).1 <
      List.indexOf (Ev.probe "b.mp3")
        (convert_audio_files_to_wav ⟨false, fun _ => false, fun _ => false⟩
          ["a.mp3", "b.mp3"] (fun _ => false)).1 := by
  refine ⟨by decide, by decide⟩

/-- Claim C3 (amended): a missing transcoder tool does not abort the
Stage 1 batch — every candidate is still processed (one terminal state
per candidate), and with the tool missing no candidate ends Converted;
such candidates fail individually while the loop continues. -/
theorem tool_missing_no_abort (env : Env1) (fs : String → Bool) (files : List String) :
    (runBatch env fs files).2.1.length = files.length ∧
    (env.ffmpegOk = false →
      ∀ s ∈ (runBatch env fs files).2.1, s ≠ FState.Converted) := by
  induction files generalizing fs with
  | nil => simp [runBatch]
  | cons f rest ih =>
    rw [runBatch_cons]
    refine ⟨by simpa using (ih ((processOne env fs f).2.2)).1, ?_⟩
    intro hff s hs
    rcases List.mem_cons.mp hs with h | h
    · exact h ▸ processOne_no_convert_of_tool_missing env fs f hff
    · exact (ih ((processOne env fs f).2.2)).2 hff s h

/-- Witness for the amended C3 at a concrete tool-missing environment. -/
theorem tool_missing_no_abort_witness :
    (runBatch ⟨false, fun _ => false, fun _ => false⟩ (fun _ => false)
        ["a.mp3"]).2.1.length = ["a.mp3"].length ∧
    ∀ s ∈ (runBatch ⟨false, fun _ => false, fun _ => false⟩ (fun _ => false)
        ["a.mp3"]).2.1, s ≠ FState.Converted :=
  ⟨(tool_missing_no_abort ⟨false, fun _ => false, fun _ => false⟩
      (fun _ => false) ["a.mp3"]).1,
   (tool_missing_no_abort ⟨false, fun _ => false, fun _ => false⟩
      (fun _ => false) ["a.mp3"]).2 rfl⟩

/-- Claim C6: for a supported non-wav candidate whose destination is
free, the loop step is exactly probe, one sidecar write, then the
transcoder invocation with the fixed codec parameters `pcm_s16le` and
`44100` (plus the caught missing-binary observation when the tool is
absent); in particular the single sidecar write precedes the transcoder
invocation. -/
theorem sidecar_before_transcode (env : Env1) (fs : String → Bool) (f : String)
    (_hsupp : is_audio_file f = true)
    (hnotwav : strLower (pySuffix f) ≠ ".wav")
    (hdest : fs (wavDest f) = false) :
    (processOne env fs f).1 =
      [Ev.probe f, Ev.saveCall f,
        Ev.ffmpegRun ["ffmpeg", "-i", f, "-acodec", "pcm_s16le", "-ar", "44100",
          wavDest f, "-y"]] ++
        (if env.ffmpegOk then [] else [Ev.ffmpegMissing]) ∧
    (processOne env fs f).1.count (Ev.saveCall f) = 1 := by
  have hbeq : (strLower (pySuffix f) == ".wav") = false := by
    simp [hnotwav]
  have htr : (processOne env fs f).1 =
      [Ev.probe f, Ev.saveCall f,
        Ev.ffmpegRun ["ffmpeg", "-i", f, "-acodec", "pcm_s16le", "-ar", "44100",
          wavDest f, "-y"]] ++
        (if env.ffmpegOk then [] else [Ev.ffmpegMissing]) := by
    simp only [processOne, hdest, Bool.false_eq_true, if_false, hbeq]
    cases hok : env.ffmpegOk <;>
      simp [convert_to_wav, convert_to_wav_cmd, hok]
  refine ⟨htr, ?_⟩
  rw [htr]
  cases env.ffmpegOk <;> simp [List.count_cons, List.count_append]

/-- Witness for C6 at a concrete candidate and environment. -/
theorem sidecar_before_transcode_witness :
    (processOne ⟨true, fun _ => true, fun _ => true⟩ (fun _ => false) "song.flac").1 =
      [Ev.probe "song.flac", Ev.saveCall "song.flac",
        Ev.ffmpegRun ["ffmpeg", "-i", "song.flac", "-acodec", "pcm_s16le", "-ar",
          "44100", wavDest "song.flac", "-y"]] ∧
    (processOne ⟨true, fun _ => true, fun _ => true⟩ (fun _ => false)
        "song.flac").1.count (Ev.saveCall "song.flac") = 1 := by
  simpa using sidecar_before_transcode ⟨true, fun _ => true, fun _ => true⟩
    (fun _ => false) "song.flac" (by decide) (by decide) rfl

/-- A positive success count means some candidate ended in a success
state. -/
theorem successCount_pos_iff (sts : List FState) :
    0 < successCount sts ↔
      ∃ s ∈ sts, s = FState.Converted ∨ s = FState.Copied ∨ s = FState.Skipped := by
  unfold successCount
  rw [List.countP_pos_iff]
  constructor
  · rintro ⟨s, hs, h⟩
    exact ⟨s, hs, by cases s <;> simp_all⟩
  · rintro ⟨s, hs, h⟩
    exact ⟨s, hs, by cases s <;> simp_all⟩

/-- Claim C8, part 1: Stage 1 exits 0 exactly when the source directory
exists and the candidate set is empty or some candidate ended Converted,
Copied or Skipped. -/
theorem stage1_exit_zero_iff (env : Env1) (sourceExists : Bool)
    (listing : List String) (fs : String → Bool) :
    stage1_main env sourceExists listing fs = 0 ↔
      sourceExists = true ∧
        (listing.filter is_audio_file = [] ∨
          ∃ s ∈ (convert_audio_files_to_wav env listing fs).2.1,
            s = FState.Converted ∨ s = FState.Copied ∨ s = FState.Skipped) := by
  cases sourceExists with
  | false => simp [stage1_main]
  | true =>
    simp only [stage1_main, if_pos rfl, true_and]
    by_cases haf : (listing.filter is_audio_file).isEmpty = true
    · rw [List.isEmpty_iff] at haf
      simp [convert_audio_files_to_wav, haf]
    · have hne : listing.filter is_audio_file ≠ [] := by
        intro h
        rw [h] at haf
        exact haf rfl
      simp only [convert_audio_files_to_wav, haf, Bool.false_eq_true, if_false,
        hne, false_or]
      by_cases hsc : successCount (runBatch env fs (listing.filter is_audio_file)).2.1 = 0
      · rw [if_pos hsc]
        constructor
        · intro h
          exact absurd h (by decide)
        · intro h
          have := (successCount_pos_iff _).mpr h
          omega
      · rw [if_neg hsc]
        constructor
        · intro _
          exact (successCount_pos_iff _).mp (Nat.pos_of_ne_zero hsc)
        · intro _
          rfl

/-- Claim C8: the Stage 1 exit code is 0 exactly when the source
directory exists and the candidate set is empty or some candidate ended
in a success state, and 1 exactly otherwise (missing directory, or a
non-empty candidate set with zero successes). -/
theorem stage1_exit_code (env : Env1) (sourceExists : Bool)
    (listing : List String) (fs : String → Bool) :
    (stage1_main env sourceExists listing fs = 0 ↔
      sourceExists = true ∧
        (listing.filter is_audio_file = [] ∨
          ∃ s ∈ (convert_audio_files_to_wav env listing fs).2.1,
            s = FState.Converted ∨ s = FState.Copied ∨ s = FState.Skipped)) ∧
    (stage1_main env sourceExists listing fs = 1 ↔
      ¬(sourceExists = true ∧
        (listing.filter is_audio_file = [] ∨
          ∃ s ∈ (convert_audio_files_to_wav env listing fs).2.1,
            s = FState.Converted ∨ s = FState.Copied ∨ s = FState.Skipped))) := by
  have h01 : stage1_main env sourceExists listing fs = 0 ∨
      stage1_main env sourceExists listing fs = 1 := by
    simp only [stage1_main, convert_audio_files_to_wav]
    cases sourceExists with
    | false => simp
    | true =>
      by_cases haf : (listing.filter is_audio_file).isEmpty = true
      · simp [haf]
      · simp only [haf, Bool.false_eq_true, if_false, if_true]
        by_cases hsc : successCount
            (runBatch env fs (listing.filter is_audio_file)).2.1 = 0 <;>
          simp [hsc]
  refine ⟨stage1_exit_zero_iff env sourceExists listing fs, ?_⟩
  rw [← stage1_exit_zero_iff env sourceExists listing fs]
  rcases h01 with h | h <;> rw [h] <;> simp

/-- Claim C10: two candidates sharing a stem share the destination path;
when the first succeeds, the second is skipped — its step emits only the
skip event, with no probe, sidecar write or transcoder invocation — yet
both count as successes. -/
theorem stem_collision_silent_skip (env : Env1) (fs : String → Bool) (f g : String)
    (hstem : pyStem g = pyStem f)
    (hfree : fs (wavDest f) = false)
    (hok : (processOne env fs f).2.1 ≠ FState.Failed) :
    wavDest g = wavDest f ∧
    (runBatch env fs [f, g]).1 = (processOne env fs f).1 ++ [Ev.skip g] ∧
    (runBatch env fs [f, g]).2.1 = [(processOne env fs f).2.1, FState.Skipped] ∧
    successCount (runBatch env fs [f, g]).2.1 = 2 := by
  have hdg : wavDest g = wavDest f := by simp [wavDest, hstem]
  have hfs1 : (processOne env fs f).2.2 (wavDest g) = true := by
    rw [hdg]
    exact processOne_creates_dest env fs f hfree hok
  have hskip := processOne_skip env ((processOne env fs f).2.2) g hfs1
  have hrun : runBatch env fs [f, g] =
      ((processOne env fs f).1 ++ [Ev.skip g],
        [(processOne env fs f).2.1, FState.Skipped], (processOne env fs f).2.2) := by
    rw [runBatch_cons, runBatch_cons, hskip]
    simp [runBatch]
  have hnf : ((processOne env fs f).2.1 != FState.Failed) = true := by
    simp [hok]
  refine ⟨hdg, by rw [hrun], by rw [hrun], ?_⟩
  rw [hrun]
  simp [successCount, List.countP_cons, hnf]

/-- Witness for C10: candidates `a.mp3` then `a.flac` in an environment
where every conversion succeeds. -/
theorem stem_collision_silent_skip_witness :
    wavDest "a.flac" = wavDest "a.mp3" ∧
    (runBatch ⟨true, fun _ => true, fun _ => true⟩ (fun _ => false)
        ["a.mp3", "a.flac"]).1 =
      (processOne ⟨true, fun _ => true, fun _ => true⟩ (fun _ => false) "a.mp3").1 ++
        [Ev.skip "a.flac"] ∧
    (runBatch ⟨true, fun _ => true, fun _ => true⟩ (fun _ => false)
        ["a.mp3", "a.flac"]).2.1 =
      [(processOne ⟨true, fun _ => true, fun _ => true⟩ (fun _ => false) "a.mp3").2.1,
        FState.Skipped] ∧
    successCount (runBatch ⟨true, fun _ => true, fun _ => true⟩ (fun _ => false)
        ["a.mp3", "a.flac"]).2.1 = 2 :=
  stem_collision_silent_skip ⟨true, fun _ => true, fun _ => true⟩ (fun _ => false)
    "a.mp3" "a.flac" (by decide) rfl (by decide)

end AudioEnhancer
